import Mathlib

/-!
Verification of the data-shaping pipeline of `src/Sales.py` (a single-script
sales dashboard).  The script is embedded shallowly: each pandas column
operation becomes a Lean function on lists of typed rows, machine floats
become exact rationals (every numeric literal exercised here is exactly
representable), pandas NaN becomes `Option.none`, and a pandas operation that
can raise becomes an `Except`-valued function whose `error` carries the
offending value.
-/

namespace SalesDash

instance {ε α : Type} [DecidableEq ε] [DecidableEq α] : DecidableEq (Except ε α)
  | .error a, .error b => decidable_of_iff (a = b) (by simp)
  | .error _, .ok _ => .isFalse (by simp)
  | .ok _, .error _ => .isFalse (by simp)
  | .ok a, .ok b => decidable_of_iff (a = b) (by simp)

/-- Model of a pandas datetime value of the Timestamp column.  `date` encodes
the calendar date as `year*10000 + month*100 + day`, a strictly monotone
encoding of calendar order, and `time` is seconds past midnight; `dt.date`
reads the `date` field and the full timestamp compares lexicographically. -/
structure Timestamp where
  date : Nat
  time : Nat
deriving DecidableEq

/-- Split a character list at every occurrence of the separator; the chunks
between separators, in order, like the string split used by the parsers. -/
def splitChar (sep : Char) : List Char → List (List Char)
  | [] => [[]]
  | c :: rest =>
      match splitChar sep rest with
      | [] => [[c]]
      | h :: t => if c == sep then [] :: h :: t else (c :: h) :: t

/-- All characters are decimal digits and the list is nonempty. -/
def allDigits (cs : List Char) : Bool :=
  !cs.isEmpty && cs.all Char.isDigit

/-- Value of a digit run. -/
def digitsToNat (cs : List Char) : Nat :=
  cs.foldl (fun a c => a * 10 + (c.toNat - 48)) 0

/-- Model of Python float() on a plain unsigned decimal literal: digit runs
with at most one decimal point and at least one digit.  Exponents, inf and
nan are not in the fragment this data exercises.  Values are exact
rationals. -/
def parseUnsigned (cs : List Char) : Option Rat :=
  match splitChar '.' cs with
  | [a] => if allDigits a then some (digitsToNat a) else none
  | [a, b] =>
      if (!a.isEmpty || !b.isEmpty) && a.all Char.isDigit && b.all Char.isDigit
      then some ((digitsToNat a : Rat) + (digitsToNat b : Rat) / ((10 : Rat) ^ b.length))
      else none
  | _ => none

/-- Model of Python float() / numeric coercion on one string: optional sign,
then an unsigned decimal literal; `none` when the string is not numeric. -/
def parseDecimal (s : String) : Option Rat :=
  match s.data with
  | '-' :: rest => (parseUnsigned rest).map (fun q => -q)
  | '+' :: rest => parseUnsigned rest
  | cs => parseUnsigned cs

/-- Model of the regex replace of line 65 / 169: every dollar sign and every
comma is removed from the string (the pattern matches the currency symbol and
the thousands separators, and replace substitutes all matches). -/
def stripCurrency (s : String) : String :=
  String.mk (s.data.filter (fun c => c != '$' && c != ','))

/-- Parse "YYYY-MM-DD" into the monotone date code, checking month and day
ranges the way pd.to_datetime validates calendar dates. -/
def parseDate (cs : List Char) : Option Nat :=
  match splitChar '-' cs with
  | [y, m, d] =>
      if allDigits y && allDigits m && allDigits d then
        if 1 ≤ digitsToNat m ∧ digitsToNat m ≤ 12 ∧ 1 ≤ digitsToNat d ∧ digitsToNat d ≤ 31
        then some (digitsToNat y * 10000 + digitsToNat m * 100 + digitsToNat d)
        else none
      else none
  | _ => none

/-- Parse "HH:MM:SS" into seconds past midnight. -/
def parseTime (cs : List Char) : Option Nat :=
  match splitChar ':' cs with
  | [h, m, s] =>
      if allDigits h && allDigits m && allDigits s then
        if digitsToNat h ≤ 23 ∧ digitsToNat m ≤ 59 ∧ digitsToNat s ≤ 59
        then some (digitsToNat h * 3600 + digitsToNat m * 60 + digitsToNat s)
        else none
      else none
  | _ => none

/-- Model of pd.to_datetime on one cell: a date, optionally followed by a
time of day; anything else is unrecognizable. -/
def parseTimestamp (s : String) : Option Timestamp :=
  match splitChar ' ' s.data with
  | [d] => (parseDate d).map (fun n => ⟨n, 0⟩)
  | [d, t] =>
      match parseDate d, parseTime t with
      | some n, some tv => some ⟨n, tv⟩
      | _, _ => none
  | _ => none

/-- A raw transaction row as loaded from CSV (line 19): the Timestamp still a
string, Amount a possibly missing string cell. -/
structure TxRaw where
  timestamp : String
  food : String
  user : String
  customer : String
  amount : Option String
deriving DecidableEq

/-- A transaction row after line 28 parsed its Timestamp. -/
structure Tx where
  ts : Timestamp
  food : String
  user : String
  customer : String
  amount : Option String
deriving DecidableEq

/-- An item row after the renaming of line 25. -/
structure Item where
  item : String
  materialCost : Option String
  rrp : Option String
  matesRates : Option String
deriving DecidableEq

/-- A staff roster row (line 22, after skiprows/usecols). -/
structure Staff where
  email : String
  staffName : String
deriving DecidableEq

/-- Line 28: pd.to_datetime over the whole Timestamp column with its default
errors, so the first unrecognizable value aborts the load, the error naming
that value. -/
def parseTxs : List TxRaw → Except String (List Tx)
  | [] => .ok []
  | t :: ts =>
      match parseTimestamp t.timestamp with
      | none => .error t.timestamp
      | some v => (parseTxs ts).map (fun rest => ⟨v, t.food, t.user, t.customer, t.amount⟩ :: rest)

/-- The date-range predicate of line 42: the date part lies in the inclusive
range; the time of day is not consulted. -/
def inRange (a b : Nat) (r : Tx) : Bool :=
  decide (a ≤ r.ts.date ∧ r.ts.date ≤ b)

/-- Lines 42-43: keep the transactions whose date part lies in the selected
inclusive range. -/
def dateFilter (a b : Nat) (tx : List Tx) : List Tx :=
  tx.filter (inRange a b)

/-- Minimum of a list of naturals, none when empty. -/
def listMin : List Nat → Option Nat
  | [] => none
  | x :: xs =>
      match listMin xs with
      | none => some x
      | some m => some (min x m)

/-- Maximum of a list of naturals, none when empty. -/
def listMax : List Nat → Option Nat
  | [] => none
  | x :: xs =>
      match listMax xs with
      | none => some x
      | some m => some (max x m)

/-- Maximum of a list of rationals, none when empty; models Series.max, whose
value on an empty series is missing. -/
def listMaxRat : List Rat → Option Rat
  | [] => none
  | x :: xs =>
      match listMaxRat xs with
      | none => some x
      | some m => some (max x m)

/-- Line 35: the minimum Timestamp date.  The minimum timestamp under the
lexicographic (date, time) order has the minimum date, so taking .date of the
minimum timestamp equals the minimum of the dates. -/
def minDate (tx : List Tx) : Option Nat :=
  listMin (tx.map (fun r => r.ts.date))

/-- Line 36: the maximum Timestamp date. -/
def maxDate (tx : List Tx) : Option Nat :=
  listMax (tx.map (fun r => r.ts.date))

/-- A merge1 row (lines 48-54): transaction fields plus the item columns,
missing when the Food matched no Item. -/
structure Row1 where
  ts : Timestamp
  food : String
  user : String
  customer : String
  amountRaw : Option String
  itemKey : Option String
  materialCostRaw : Option String
  rrpRaw : Option String
  matesRatesRaw : Option String
deriving DecidableEq

/-- A merged row (lines 56-62): merge1 fields plus the staff columns, missing
when the User matched no Email. -/
structure MRow where
  ts : Timestamp
  food : String
  user : String
  customer : String
  amountRaw : Option String
  itemKey : Option String
  materialCostRaw : Option String
  rrpRaw : Option String
  matesRatesRaw : Option String
  email : Option String
  staffName : Option String
deriving DecidableEq

/-- Lines 48-54: left join of the filtered transactions with the items table
on Food = Item.  Every matching item row produces one output row (fan-out on
duplicate keys); an unmatched transaction is kept with missing item fields. -/
def joinItems (tx : List Tx) (items : List Item) : List Row1 :=
  tx.flatMap (fun t =>
    match items.filter (fun i => i.item == t.food) with
    | [] => [⟨t.ts, t.food, t.user, t.customer, t.amount, none, none, none, none⟩]
    | ms => ms.map (fun i =>
        ⟨t.ts, t.food, t.user, t.customer, t.amount,
         some i.item, i.materialCost, i.rrp, i.matesRates⟩))

/-- Lines 56-62: left join of merge1 with the staff table on User = Email;
an unmatched row keeps missing Email and Staff Name. -/
def joinStaff (rows : List Row1) (staffT : List Staff) : List MRow :=
  rows.flatMap (fun r =>
    match staffT.filter (fun s => s.email == r.user) with
    | [] => [⟨r.ts, r.food, r.user, r.customer, r.amountRaw, r.itemKey,
              r.materialCostRaw, r.rrpRaw, r.matesRatesRaw, none, none⟩]
    | ms => ms.map (fun s =>
        ⟨r.ts, r.food, r.user, r.customer, r.amountRaw, r.itemKey,
         r.materialCostRaw, r.rrpRaw, r.matesRatesRaw, some s.email, some s.staffName⟩))

/-- A merged row after the numeric cleaning of lines 65, 68 and 169 — the
currency columns and Amount as exact numbers, missing where the source cell
was missing. -/
structure CRow where
  ts : Timestamp
  food : String
  user : String
  customer : String
  amount : Option Rat
  itemKey : Option String
  materialCost : Option Rat
  rrp : Option Rat
  matesRates : Option String
  staffName : Option String
deriving DecidableEq

/-- Model of .replace(regex).astype(float) on one cell: a missing cell stays
missing, a cell whose stripped string is numeric becomes its number, and any
other cell raises ValueError — the error carries the stripped string. -/
def cleanCell : Option String → Except String (Option Rat)
  | none => .ok none
  | some s =>
      match parseDecimal (stripCurrency s) with
      | some q => .ok (some q)
      | none => .error (stripCurrency s)

/-- Lines 65 and 169: the currency cleaning applied to a whole column; the
first unconvertible cell aborts the conversion (astype raises). -/
def cleanCurrencyColumn : List (Option String) → Except String (List (Option Rat))
  | [] => .ok []
  | c :: cs =>
      match cleanCell c with
      | .error e => .error e
      | .ok v => (cleanCurrencyColumn cs).map (fun rest => v :: rest)

/-- Row-wise composition of the column cleanings: RRP (line 65) and Material
Cost (line 169) via the raising currency conversion, Amount (line 68) via
pd.to_numeric with errors=coerce, which turns an unparseable cell into
missing.  Success, and the values on success, agree with the script's
column-at-a-time order; only which bad cell is named first can differ. -/
def cleanRow (r : MRow) : Except String CRow :=
  match cleanCell r.rrpRaw with
  | .error e => .error e
  | .ok rrp =>
      match cleanCell r.materialCostRaw with
      | .error e => .error e
      | .ok mc =>
          .ok ⟨r.ts, r.food, r.user, r.customer, r.amountRaw.bind parseDecimal,
               r.itemKey, mc, rrp, r.matesRatesRaw, r.staffName⟩

/-- The cleaning over the whole merged table. -/
def cleanRows : List MRow → Except String (List CRow)
  | [] => .ok []
  | r :: rs =>
      match cleanRow r with
      | .error e => .error e
      | .ok c => (cleanRows rs).map (fun rest => c :: rest)

/-- Line 71: Sales = Amount * RRP; missing (NaN) propagates through the
product. -/
def sales (r : CRow) : Option Rat :=
  match r.amount, r.rrp with
  | some a, some p => some (a * p)
  | _, _ => none

/-- Line 172: Profit = (RRP - Material Cost) * Amount; missing propagates. -/
def profit (r : CRow) : Option Rat :=
  match r.rrp, r.materialCost, r.amount with
  | some p, some c, some a => some ((p - c) * a)
  | _, _, _ => none

/-- Line 76: merged["Staff Name"].dropna().unique() — the distinct
non-missing staff names; only the set of names matters downstream. -/
def defaultStaffNames (rows : List CRow) : List String :=
  (rows.filterMap (fun r => r.staffName)).dedup

/-- The staff-selection predicate of line 80: isin against a list of selected
names; a missing Staff Name never matches. -/
def keepStaff (sel : List String) (r : CRow) : Bool :=
  match r.staffName with
  | some n => sel.contains n
  | none => false

/-- Line 80: merged[merged["Staff Name"].isin(selected_staff)]. -/
def filteredMerged (sel : List String) (rows : List CRow) : List CRow :=
  rows.filter (keepStaff sel)

/-- Line 101: Series.sum with its default skipna — missing Sales cells
contribute nothing; the sum of an empty column is 0. -/
def totalSales (rows : List CRow) : Rat :=
  (rows.filterMap sales).sum

/-- Line 105: the transaction count is the number of filtered rows. -/
def txCount (rows : List CRow) : Nat :=
  rows.length

/-- The distinct non-missing keys of a groupby (pandas drops rows whose
group key is NaN). -/
def groupKeys (key : CRow → Option String) (rows : List CRow) : List String :=
  (rows.filterMap key).dedup

/-- The rows of one group. -/
def groupRows (key : CRow → Option String) (k : String) (rows : List CRow) : List CRow :=
  rows.filter (fun r => key r == some k)

/-- groupby(key)[col].sum() for one group: the skipna sum of the column over
the rows of that group. -/
def groupSum (key : CRow → Option String) (val : CRow → Option Rat) (k : String)
    (rows : List CRow) : Rat :=
  ((groupRows key k rows).filterMap val).sum

/-- groupby(key)[col].sum() as an association list keyed by the distinct
group keys. -/
def grouped (key : CRow → Option String) (val : CRow → Option Rat)
    (rows : List CRow) : List (String × Rat) :=
  (groupKeys key rows).map (fun k => (k, groupSum key val k rows))

/-- sort_values(ascending=False): sort descending by the chosen numeric
projection.  The order of ties is whatever the sort produces, matching the
unspecified tie order of the script. -/
def sortDescBy {α : Type} (f : α → Rat) (l : List α) : List α :=
  l.mergeSort (fun p q => decide (f q ≤ f p))

/-- Lines 109-114: group the staff-filtered rows by Staff Name, sum Sales,
sort descending, idxmax.  idxmax of an empty series raises ValueError; the
model returns none there. -/
def topStaff (rows : List CRow) : Option String :=
  ((sortDescBy Prod.snd (grouped (fun r => r.staffName) sales rows)).head?).map Prod.fst

/-- Lines 115-119: the maximal summed Sales; max() of an empty series is
missing. -/
def topSales (rows : List CRow) : Option Rat :=
  listMaxRat ((grouped (fun r => r.staffName) sales rows).map Prod.snd)

/-- Lines 127-132: Sales by Staff over the staff-filtered rows, descending,
with no length limit. -/
def salesByStaff (rows : List CRow) : List (String × Rat) :=
  sortDescBy Prod.snd (grouped (fun r => r.staffName) sales rows)

/-- Lines 175-180: group by Item, summing both Profit and Amount, sorted by
Profit descending.  The script applies this to `merged`, the rows before the
staff-name filter. -/
def profitByItem (rows : List CRow) : List (String × Rat × Rat) :=
  sortDescBy (fun t => t.2.1)
    ((groupKeys (fun r => r.itemKey) rows).map (fun k =>
      (k, groupSum (fun r => r.itemKey) profit k rows,
          groupSum (fun r => r.itemKey) (fun r => r.amount) k rows)))

/-- Line 183: the top 10 rows of the item-profit aggregation. -/
def topProfitItems (rows : List CRow) : List (String × Rat × Rat) :=
  (profitByItem rows).take 10

/-- Modelled from the spec words of C3, for comparison with the code: the
item-profit aggregation computed over the rows that satisfy the staff-name
predicate as well. -/
def topProfitItemsSpec (sel : List String) (rows : List CRow) : List (String × Rat × Rat) :=
  topProfitItems (filteredMerged sel rows)

/-- Lines 201-207: Sales by Customer over the staff-filtered rows,
descending, top 10.  Customer is a plain string column, so the group key is
always present. -/
def salesByCustomer (rows : List CRow) : List (String × Rat) :=
  (sortDescBy Prod.snd (grouped (fun r => some r.customer) sales rows)).take 10

/-- The merged, cleaned table for a chosen date range: parse timestamps
(line 28), filter by date (lines 42-43), the two left joins (lines 48-62),
and the numeric cleaning (lines 65, 68, 169). -/
def mergedRows (txr : List TxRaw) (items : List Item) (staffT : List Staff)
    (a b : Nat) : Except String (List CRow) :=
  match parseTxs txr with
  | .error e => .error e
  | .ok tx => cleanRows (joinStaff (joinItems (dateFilter a b tx) items) staffT)

/-- The pipeline at the default date range [min Timestamp, max Timestamp]
(lines 35-39); the .getD fallback is never reached on nonempty data. -/
def defaultRun (txr : List TxRaw) (items : List Item) (staffT : List Staff) :
    Except String (List CRow) :=
  match parseTxs txr with
  | .error e => .error e
  | .ok tx =>
      cleanRows (joinStaff (joinItems
        (dateFilter ((minDate tx).getD 0) ((maxDate tx).getD 0) tx) items) staffT)

/-! Concrete data used by the scenario claims: the single-row dataset of the
specification's scenario (a Cod sale by Alice), its extension with an "N/A"
Amount, and a two-staff dataset exercising the staff filter. -/

def txC5 : List TxRaw := [⟨"2024-01-01", "Cod", "a@x.com", "Bob", some "2"⟩]

def itemsC5 : List Item := [⟨"Cod", some "$2.00", some "$5.00", none⟩]

def staffC5 : List Staff := [⟨"a@x.com", "Alice"⟩]

/-- The merged, cleaned row the scenario dataset produces. -/
def rowC5 : CRow :=
  ⟨⟨20240101, 0⟩, "Cod", "a@x.com", "Bob", some 2, some "Cod", some 2, some 5, none, some "Alice"⟩

def txC4 : List TxRaw :=
  [⟨"2024-01-01", "Cod", "a@x.com", "Bob", some "2"⟩,
   ⟨"2024-01-02", "Cod", "a@x.com", "Bob", some "N/A"⟩]

/-- The merged row of the "N/A"-Amount transaction: Amount coerced to
missing, hence Sales missing. -/
def rowC4na : CRow :=
  ⟨⟨20240102, 0⟩, "Cod", "a@x.com", "Bob", none, some "Cod", some 2, some 5, none, some "Alice"⟩

/-- Two cleaned rows for the same item sold by two staff members. -/
def rowA : CRow :=
  ⟨⟨20240101, 0⟩, "Cod", "a@x.com", "Bob", some 2, some "Cod", some 2, some 5, none, some "Alice"⟩

def rowB : CRow :=
  ⟨⟨20240101, 0⟩, "Cod", "b@x.com", "Joe", some 2, some "Cod", some 2, some 5, none, some "Bert"⟩

def m3 : List CRow := [rowA, rowB]

/-! Helper lemmas about the embedded operations. -/

theorem listMin_eq_none {l : List Nat} : listMin l = none ↔ l = [] := by
  cases l with
  | nil => simp [listMin]
  | cons a as =>
      simp only [listMin]
      cases listMin as <;> simp

theorem listMax_eq_none {l : List Nat} : listMax l = none ↔ l = [] := by
  cases l with
  | nil => simp [listMax]
  | cons a as =>
      simp only [listMax]
      cases listMax as <;> simp

theorem listMin_le {l : List Nat} {m x : Nat} (hm : listMin l = some m) (hx : x ∈ l) :
    m ≤ x := by
  induction l generalizing m with
  | nil => cases hx
  | cons a as ih =>
      rw [listMin] at hm
      cases h : listMin as with
      | none =>
          rw [h] at hm
          simp only [Option.some.injEq] at hm
          subst hm
          have : as = [] := listMin_eq_none.mp h
          subst this
          simp only [List.mem_singleton] at hx
          subst hx
          exact le_refl _
      | some mv =>
          rw [h] at hm
          simp only [Option.some.injEq] at hm
          subst hm
          rcases List.mem_cons.mp hx with rfl | hx2
          · exact min_le_left _ _
          · exact le_trans (min_le_right _ _) (ih h hx2)

theorem le_listMax {l : List Nat} {m x : Nat} (hm : listMax l = some m) (hx : x ∈ l) :
    x ≤ m := by
  induction l generalizing m with
  | nil => cases hx
  | cons a as ih =>
      rw [listMax] at hm
      cases h : listMax as with
      | none =>
          rw [h] at hm
          simp only [Option.some.injEq] at hm
          subst hm
          have : as = [] := listMax_eq_none.mp h
          subst this
          simp only [List.mem_singleton] at hx
          subst hx
          exact le_refl _
      | some mv =>
          rw [h] at hm
          simp only [Option.some.injEq] at hm
          subst hm
          rcases List.mem_cons.mp hx with rfl | hx2
          · exact le_max_left _ _
          · exact le_trans (ih h hx2) (le_max_right _ _)

theorem sublist_flatMap {α β : Type} (f : α → List β) {l₁ l₂ : List α}
    (h : l₁.Sublist l₂) : (l₁.flatMap f).Sublist (l₂.flatMap f) := by
  induction h with
  | slnil => simp
  | cons a _ ih => simpa using ih.trans (List.sublist_append_right (f a) _)
  | cons₂ a _ ih => simpa using List.Sublist.append (List.Sublist.refl (f a)) ih

theorem sortDescBy_perm {α : Type} (f : α → Rat) (l : List α) :
    (sortDescBy f l).Perm l :=
  List.mergeSort_perm l _

theorem sortDescBy_sorted {α : Type} (f : α → Rat) (l : List α) :
    List.Pairwise (fun p q => f q ≤ f p) (sortDescBy f l) := by
  have h := @List.sorted_mergeSort _ (fun p q => decide (f q ≤ f p))
    (fun a b c h₁ h₂ => by
      simp only [decide_eq_true_eq] at *
      exact le_trans h₂ h₁)
    (fun a b => by
      simp only [Bool.or_eq_true, decide_eq_true_eq]
      exact le_total (f b) (f a))
    l
  exact h.imp (fun hab => by simpa using hab)

theorem grouped_mem {key : CRow → Option String} {val : CRow → Option Rat}
    {rows : List CRow} {p : String × Rat} (hp : p ∈ grouped key val rows) :
    p.1 ∈ groupKeys key rows ∧ p.2 = groupSum key val p.1 rows := by
  rcases List.mem_map.mp hp with ⟨k, hk, rfl⟩
  exact ⟨hk, rfl⟩

theorem totalSales_append (xs ys : List CRow) :
    totalSales (xs ++ ys) = totalSales xs + totalSales ys := by
  simp [totalSales, List.filterMap_append]

theorem totalSales_cons_none {r : CRow} (h : sales r = none) (rows : List CRow) :
    totalSales (r :: rows) = totalSales rows := by
  simp [totalSales, List.filterMap_cons, h]

theorem totalSales_cons_some {r : CRow} {v : Rat} (h : sales r = some v) (rows : List CRow) :
    totalSales (r :: rows) = v + totalSales rows := by
  simp [totalSales, List.filterMap_cons, h]

/-! The claims. -/

/-- C7: a transaction row passes the date filter of lines 42-43 if and only if
start ≤ date(Timestamp) ≤ end, inclusive on both ends; and the decision reads
only the date portion of the timestamp, never the time of day. -/
theorem c7_date_filter (a b : Nat) (tx : List Tx) (r : Tx) :
    (r ∈ dateFilter a b tx ↔ r ∈ tx ∧ a ≤ r.ts.date ∧ r.ts.date ≤ b) ∧
    (∀ t : Nat, inRange a b { r with ts := ⟨r.ts.date, t⟩ } = inRange a b r) := by
  constructor
  · simp [dateFilter, List.mem_filter, inRange]
  · intro t
    simp [inRange]

def txC7 : Tx := ⟨⟨7, 123⟩, "Cod", "a@x.com", "Bob", none⟩

/-- Witness for C7: a concrete row with date 7 is kept by the filter [5, 10]. -/
theorem c7_date_filter_witness : txC7 ∈ dateFilter 5 10 [txC7] :=
  (c7_date_filter 5 10 [txC7] txC7).1.mpr ⟨by decide, by decide, by decide⟩

/-- C10: a merged row whose Staff Name is missing (its User matched no staff
Email) is excluded by the staff filter for every selection — in particular the
default one, whose option list drops missing names — and so contributes
nothing to the Total Sales metric, the transaction count, or any
staff-filtered view. -/
theorem c10_missing_staff_excluded (r : CRow) (hr : r.staffName = none)
    (sel : List String) (m rows₁ rows₂ : List CRow) :
    r ∉ filteredMerged sel m ∧
    filteredMerged sel (rows₁ ++ r :: rows₂) = filteredMerged sel (rows₁ ++ rows₂) ∧
    totalSales (filteredMerged sel (rows₁ ++ r :: rows₂)) =
      totalSales (filteredMerged sel (rows₁ ++ rows₂)) ∧
    txCount (filteredMerged sel (rows₁ ++ r :: rows₂)) =
      txCount (filteredMerged sel (rows₁ ++ rows₂)) := by
  have hk : keepStaff sel r = false := by simp [keepStaff, hr]
  have h2 : filteredMerged sel (rows₁ ++ r :: rows₂) = filteredMerged sel (rows₁ ++ rows₂) := by
    simp [filteredMerged, List.filter_append, List.filter_cons, hk]
  refine ⟨?_, h2, by rw [h2], by rw [h2]⟩
  intro hmem
  have hmem2 := (List.mem_filter.mp hmem).2
  rw [hk] at hmem2
  exact Bool.false_ne_true hmem2

def rowNoName : CRow := ⟨⟨20240101, 0⟩, "Eel", "z@x.com", "Bob", some 3, some "Eel",
  some 1, some 4, none, none⟩

/-- Witness for C10: the concrete unmatched row is not in the filtered set. -/
theorem c10_missing_staff_witness : rowNoName ∉ filteredMerged ["Alice"] [rowNoName] :=
  (c10_missing_staff_excluded rowNoName rfl ["Alice"] [rowNoName] [] []).1

/-- C1: with an empty selected-staff set the filtered row set is empty, the
Total Sales metric is 0 and the transaction count is 0, and the chart inputs
are empty — but the Top Seller computation, idxmax over the empty grouped
series, has no value: the script raises ValueError there (modelled as none)
instead of rendering a degenerate metric. -/
theorem c1_empty_staff_selection (m : List CRow) :
    filteredMerged [] m = [] ∧
    totalSales (filteredMerged [] m) = 0 ∧
    txCount (filteredMerged [] m) = 0 ∧
    topStaff (filteredMerged [] m) = none ∧
    salesByStaff (filteredMerged [] m) = [] ∧
    salesByCustomer (filteredMerged [] m) = [] := by
  have h : filteredMerged [] m = [] := by
    simp only [filteredMerged, List.filter_eq_nil_iff]
    intro r _
    cases hr : r.staffName <;> simp [keepStaff, hr]
  rw [h]
  refine ⟨rfl, rfl, rfl, ?_, ?_, ?_⟩ <;>
    simp [topStaff, salesByStaff, salesByCustomer, grouped, groupKeys, sortDescBy]

/-- C4: the Total Sales metric is the sum of the per-row Sales over the
filtered merged rows with missing Sales excluded — removing a missing-Sales
row never changes the sum, a present value contributes exactly itself — and in
the concrete scenario an Amount of "N/A" coerces to missing, its row's Sales
is missing, and Total Sales over the two rows is 10 with both rows still
counted as transactions. -/
theorem c4_total_sales :
    (∀ (rows₁ rows₂ : List CRow) (r : CRow), sales r = none →
        totalSales (rows₁ ++ r :: rows₂) = totalSales (rows₁ ++ rows₂)) ∧
    (∀ (rows₁ rows₂ : List CRow) (r : CRow) (v : Rat), sales r = some v →
        totalSales (rows₁ ++ r :: rows₂) = v + totalSales (rows₁ ++ rows₂)) ∧
    (parseDecimal "N/A" = none ∧
     mergedRows txC4 itemsC5 staffC5 20240101 20240102 = .ok [rowC5, rowC4na] ∧
     sales rowC4na = none ∧
     filteredMerged (defaultStaffNames [rowC5, rowC4na]) [rowC5, rowC4na] = [rowC5, rowC4na] ∧
     totalSales [rowC5, rowC4na] = 10 ∧
     txCount [rowC5, rowC4na] = 2) := by
  refine ⟨?_, ?_, ?_, ?_, rfl, ?_, ?_, rfl⟩
  · intro rows₁ rows₂ r hr
    rw [totalSales_append, totalSales_append, totalSales_cons_none hr]
  · intro rows₁ rows₂ r v hr
    rw [totalSales_append, totalSales_append, totalSales_cons_some hr]
    ring
  · decide
  · simp +decide [mergedRows, txC4, itemsC5, staffC5, rowC5, rowC4na, parseTxs,
      parseTimestamp, parseDate, parseTime, splitChar, allDigits, digitsToNat,
      dateFilter, inRange, joinItems, joinStaff, cleanRows, cleanRow, cleanCell,
      stripCurrency, parseDecimal, parseUnsigned, Except.map]
  · simp +decide [filteredMerged, defaultStaffNames, keepStaff, rowC5, rowC4na]
  · simp [totalSales, List.filterMap_cons, sales, rowC5, rowC4na]
    norm_num

/-- Witness for C4: removing the missing-Sales row leaves the sum unchanged,
and a present Sales value contributes itself, at concrete rows. -/
theorem c4_total_sales_witness :
    totalSales ([rowC5] ++ rowC4na :: []) = totalSales ([rowC5] ++ []) ∧
    totalSales ([] ++ rowC5 :: []) = 10 + totalSales ([] ++ ([] : List CRow)) :=
  ⟨c4_total_sales.1 [rowC5] [] rowC4na rfl,
   c4_total_sales.2.1 [] [] rowC5 10 (by simp [sales, rowC5]; norm_num)⟩

/-- C5: on every merged row with present Amount, RRP and Material Cost the
derived columns satisfy Sales = Amount * RRP and Profit =
(RRP - Material Cost) * Amount; and the single-row scenario (Amount 2, RRP
"$5.00", Material Cost "$2.00", staff Alice) yields Sales 10, Profit 6, and
Top Seller Alice with 10. -/
theorem c5_derivation :
    (∀ (r : CRow) (a p c : Rat), r.amount = some a → r.rrp = some p →
        r.materialCost = some c →
        sales r = some (a * p) ∧ profit r = some ((p - c) * a)) ∧
    (defaultRun txC5 itemsC5 staffC5 = .ok [rowC5] ∧
     sales rowC5 = some 10 ∧ profit rowC5 = some 6 ∧
     defaultStaffNames [rowC5] = ["Alice"] ∧
     topStaff (filteredMerged (defaultStaffNames [rowC5]) [rowC5]) = some "Alice" ∧
     topSales (filteredMerged (defaultStaffNames [rowC5]) [rowC5]) = some 10) := by
  refine ⟨?_, ?_, ?_, ?_, by decide, ?_, ?_⟩
  · intro r a p c ha hp hc
    constructor <;> simp [sales, profit, ha, hp, hc]
  · simp +decide [defaultRun, txC5, itemsC5, staffC5, rowC5, parseTxs, parseTimestamp,
      parseDate, parseTime, splitChar, allDigits, digitsToNat, minDate, maxDate,
      listMin, listMax, dateFilter, inRange, joinItems, joinStaff, cleanRows, cleanRow,
      cleanCell, stripCurrency, parseDecimal, parseUnsigned, Except.map]
  · simp [sales, rowC5]; norm_num
  · simp [profit, rowC5]; norm_num
  · simp +decide [topStaff, filteredMerged, defaultStaffNames, rowC5, keepStaff,
      grouped, groupKeys, groupSum, groupRows, sortDescBy, sales, List.mergeSort]
  · simp +decide [topSales, filteredMerged, defaultStaffNames, rowC5, keepStaff,
      grouped, groupKeys, groupSum, groupRows, listMaxRat, sales]
    norm_num

/-- Witness for C5: the derivation formulas applied at the concrete scenario
row. -/
theorem c5_derivation_witness :
    sales rowC5 = some (2 * 5) ∧ profit rowC5 = some ((5 - 2) * 2) :=
  c5_derivation.1 rowC5 2 5 2 rfl rfl rfl

/-- C6: whenever the filtered row set is nonempty, the staff member reported
by the Top Seller metric has summed Sales at least every other staff member's
summed Sales in that filtered set (ties broken by the sort order). -/
theorem c6_top_seller (sel : List String) (m : List CRow)
    (hne : filteredMerged sel m ≠ []) :
    ∃ t, topStaff (filteredMerged sel m) = some t ∧
      ∀ k ∈ groupKeys (fun r => r.staffName) (filteredMerged sel m),
        groupSum (fun r => r.staffName) sales k (filteredMerged sel m) ≤
        groupSum (fun r => r.staffName) sales t (filteredMerged sel m) := by
  set rows := filteredMerged sel m with hrows
  obtain ⟨r, hr⟩ : ∃ r, r ∈ rows := by
    cases h : rows with
    | nil => exact absurd h hne
    | cons a as => exact ⟨a, h ▸ List.mem_cons_self a as⟩
  have hr2 : keepStaff sel r = true := (List.mem_filter.mp (hrows ▸ hr)).2
  obtain ⟨n, hn⟩ : ∃ n, r.staffName = some n := by
    cases hsn : r.staffName with
    | none => simp [keepStaff, hsn] at hr2
    | some n => exact ⟨n, rfl⟩
  have hkeys : n ∈ groupKeys (fun r => r.staffName) rows := by
    simp only [groupKeys, List.mem_dedup, List.mem_filterMap]
    exact ⟨r, hr, hn⟩
  have hgne : grouped (fun r => r.staffName) sales rows ≠ [] := by
    simp only [grouped, ne_eq, List.map_eq_nil_iff]
    exact List.ne_nil_of_mem hkeys
  cases hs : sortDescBy Prod.snd (grouped (fun r => r.staffName) sales rows) with
  | nil =>
      have hlen := (sortDescBy_perm Prod.snd (grouped (fun r => r.staffName) sales rows)).length_eq
      rw [hs] at hlen
      exact absurd (List.eq_nil_of_length_eq_zero hlen.symm) hgne
  | cons p rest =>
      refine ⟨p.1, ?_, ?_⟩
      · simp [topStaff, hs]
      · intro k hk
        have hpg : p ∈ grouped (fun r => r.staffName) sales rows :=
          (sortDescBy_perm Prod.snd _).subset (hs ▸ List.mem_cons_self p rest)
        have hp2 := (grouped_mem hpg).2
        have hkg : (k, groupSum (fun r => r.staffName) sales k rows) ∈
            grouped (fun r => r.staffName) sales rows :=
          List.mem_map_of_mem _ hk
        have hks := (sortDescBy_perm Prod.snd
          (grouped (fun r => r.staffName) sales rows)).mem_iff.mpr hkg
        rw [hs] at hks
        rcases List.mem_cons.mp hks with heq | hrest
        · have : groupSum (fun r => r.staffName) sales k rows = p.2 :=
            congrArg Prod.snd heq
          rw [this, hp2]
        · have hsorted := sortDescBy_sorted Prod.snd
            (grouped (fun r => r.staffName) sales rows)
          rw [hs] at hsorted
          have hle := (List.pairwise_cons.mp hsorted).1 _ hrest
          rw [← hp2]
          exact hle

/-- Witness for C6: the single-row filtered set has Alice as top seller. -/
theorem c6_top_seller_witness :
    ∃ t, topStaff (filteredMerged ["Alice"] [rowC5]) = some t ∧
      ∀ k ∈ groupKeys (fun r => r.staffName) (filteredMerged ["Alice"] [rowC5]),
        groupSum (fun r => r.staffName) sales k (filteredMerged ["Alice"] [rowC5]) ≤
        groupSum (fun r => r.staffName) sales t (filteredMerged ["Alice"] [rowC5]) :=
  c6_top_seller ["Alice"] [rowC5] (by decide)

/-- C9: for every date range [a, b] with a ≤ b, filtering by [a, b] and then
performing the two left joins yields a sublist of filtering by the full range
[min Timestamp, max Timestamp] and then joining. -/
theorem c9_monotone_narrowing (tx : List Tx) (items : List Item) (staffT : List Staff)
    (a b lo hi : Nat) (_hab : a ≤ b) (hlo : minDate tx = some lo)
    (hhi : maxDate tx = some hi) :
    (joinStaff (joinItems (dateFilter a b tx) items) staffT).Sublist
      (joinStaff (joinItems (dateFilter lo hi tx) items) staffT) := by
  have hfull : dateFilter lo hi tx = tx := by
    rw [dateFilter, List.filter_eq_self]
    intro r hr
    simp only [inRange, decide_eq_true_eq]
    exact ⟨listMin_le hlo (List.mem_map_of_mem _ hr),
           le_listMax hhi (List.mem_map_of_mem _ hr)⟩
  rw [hfull]
  exact sublist_flatMap _ (sublist_flatMap _ (List.filter_sublist tx))

def txC9 : List Tx :=
  [⟨⟨20240103, 0⟩, "Cod", "a@x.com", "Bob", some "2"⟩,
   ⟨⟨20240107, 0⟩, "Eel", "a@x.com", "Joe", some "1"⟩]

/-- Witness for C9 at a concrete two-row table and the range [20240104,
20240107] against the full range [20240103, 20240107]. -/
theorem c9_monotone_narrowing_witness :
    (joinStaff (joinItems (dateFilter 20240104 20240107 txC9) itemsC5) staffC5).Sublist
      (joinStaff (joinItems (dateFilter 20240103 20240107 txC9) itemsC5) staffC5) :=
  c9_monotone_narrowing txC9 itemsC5 staffC5 20240104 20240107 20240103 20240107
    (by decide) (by decide) (by decide)

/-! Characterization of the currency-column cleaning, for C2. -/

theorem cleanCurrencyColumn_ok_iff (col : List (Option String)) :
    (∃ vals, cleanCurrencyColumn col = .ok vals) ↔
    ∀ s, some s ∈ col → (parseDecimal (stripCurrency s)).isSome := by
  induction col with
  | nil => simp [cleanCurrencyColumn]
  | cons c cs ih =>
      constructor
      · rintro ⟨vals, hv⟩ s hs
        unfold cleanCurrencyColumn at hv
        cases hc : cleanCell c with
        | error e => rw [hc] at hv; cases hv
        | ok v =>
            rw [hc] at hv
            cases hcc : cleanCurrencyColumn cs with
            | error e => rw [hcc] at hv; simp [Except.map] at hv
            | ok vs =>
                rcases List.mem_cons.mp hs with h | h
                · subst h
                  cases hp : parseDecimal (stripCurrency s) with
                  | none => simp [cleanCell, hp] at hc
                  | some q => simp [hp]
                · exact ih.mp ⟨vs, hcc⟩ s h
      · intro hall
        have hc : ∃ v, cleanCell c = .ok v := by
          cases c with
          | none => exact ⟨none, rfl⟩
          | some s =>
              have hss := hall s (List.mem_cons_self _ _)
              cases hp : parseDecimal (stripCurrency s) with
              | none => rw [hp] at hss; simp at hss
              | some q => exact ⟨some q, by simp only [cleanCell, hp]⟩
        rcases hc with ⟨v, hc⟩
        rcases ih.mpr (fun s hs => hall s (List.mem_cons_of_mem _ hs)) with ⟨vs, hcc⟩
        exact ⟨v :: vs, by unfold cleanCurrencyColumn; rw [hc, hcc]; rfl⟩

theorem cleanCurrencyColumn_ok_val {col : List (Option String)} {vals : List (Option Rat)}
    (h : cleanCurrencyColumn col = .ok vals) :
    vals = col.map (fun c => c.bind (fun s => parseDecimal (stripCurrency s))) := by
  induction col generalizing vals with
  | nil =>
      unfold cleanCurrencyColumn at h
      cases h
      simp
  | cons c cs ih =>
      unfold cleanCurrencyColumn at h
      cases hc : cleanCell c with
      | error e => rw [hc] at h; cases h
      | ok v =>
          rw [hc] at h
          cases hcc : cleanCurrencyColumn cs with
          | error e => rw [hcc] at h; simp [Except.map] at h
          | ok vs =>
              rw [hcc] at h
              have hval : vals = v :: vs := by
                simpa [Except.map] using h.symm
              subst hval
              have hv : v = c.bind (fun s => parseDecimal (stripCurrency s)) := by
                cases c with
                | none => cases hc; rfl
                | some s =>
                    cases hp : parseDecimal (stripCurrency s) with
                    | none => simp [cleanCell, hp] at hc
                    | some q =>
                        simp only [cleanCell, hp, Except.ok.injEq] at hc
                        subst hc
                        simp [hp]
              rw [hv, ih hcc]
              simp

theorem cleanCurrencyColumn_error {col : List (Option String)} {e : String}
    (h : cleanCurrencyColumn col = .error e) :
    ∃ s, some s ∈ col ∧ stripCurrency s = e ∧ parseDecimal e = none := by
  induction col with
  | nil => cases h
  | cons c cs ih =>
      unfold cleanCurrencyColumn at h
      cases hc : cleanCell c with
      | error e0 =>
          rw [hc] at h
          cases h
          cases c with
          | none => cases hc
          | some s =>
              cases hp : parseDecimal (stripCurrency s) with
              | none =>
                  simp only [cleanCell, hp, Except.error.injEq] at hc
                  exact ⟨s, List.mem_cons_self _ _, hc, hc ▸ hp⟩
              | some q => simp [cleanCell, hp] at hc
      | ok v =>
          rw [hc] at h
          cases hcc : cleanCurrencyColumn cs with
          | error e0 =>
              rw [hcc] at h
              simp only [Except.map] at h
              cases h
              rcases ih hcc with ⟨s, hs, h1, h2⟩
              exact ⟨s, List.mem_cons_of_mem _ hs, h1, h2⟩
          | ok vs => rw [hcc] at h; simp [Except.map] at h

/-- C2 counterexample: on the value "N/A" the currency conversion of
line 65 / 169 raises (astype(float) ValueError) — it does not produce a
missing value, contradicting the claim that a failed conversion becomes
missing without aborting the run. -/
theorem c2_currency_counterexample :
    cleanCurrencyColumn [some "N/A"] = Except.error "N/A" := by decide

/-- C2 as amended: the cleaning strips the currency symbol and thousands
separators and converts to a number; missing cells stay missing and a
converted value is exactly the parse of the stripped string (so never a
silent zero); but a non-missing value that still fails conversion raises an
error naming the stripped string, aborting the run, instead of becoming
missing. -/
theorem c2_currency_amended (col : List (Option String)) :
    ((∃ vals, cleanCurrencyColumn col = .ok vals) ↔
      ∀ s, some s ∈ col → (parseDecimal (stripCurrency s)).isSome) ∧
    (∀ vals, cleanCurrencyColumn col = .ok vals →
      vals = col.map (fun c => c.bind (fun s => parseDecimal (stripCurrency s)))) ∧
    (∀ e, cleanCurrencyColumn col = .error e →
      ∃ s, some s ∈ col ∧ stripCurrency s = e ∧ parseDecimal e = none) :=
  ⟨cleanCurrencyColumn_ok_iff col,
   fun _ h => cleanCurrencyColumn_ok_val h,
   fun _ h => cleanCurrencyColumn_error h⟩

/-- Witness for C2: a well-formed column ("$1,234.56" and one missing cell)
cleans successfully. -/
theorem c2_currency_witness :
    ∃ vals, cleanCurrencyColumn [some "$1,234.56", none] = Except.ok vals :=
  (c2_currency_amended [some "$1,234.56", none]).1.mpr (by
    intro s hs
    rcases List.mem_cons.mp hs with h1 | h2
    · cases h1
      decide
    · rcases List.mem_cons.mp h2 with h3 | h4
      · cases h3
      · cases h4)

/-! Characterization of the Timestamp parsing, for C8. -/

theorem parseTxs_ok_iff (col : List TxRaw) :
    (∃ txs, parseTxs col = .ok txs) ↔
    ∀ t ∈ col, (parseTimestamp t.timestamp).isSome := by
  induction col with
  | nil => simp [parseTxs]
  | cons t ts ih =>
      constructor
      · rintro ⟨txs, hv⟩ u hu
        unfold parseTxs at hv
        cases hp : parseTimestamp t.timestamp with
        | none => rw [hp] at hv; cases hv
        | some v =>
            rw [hp] at hv
            cases hcc : parseTxs ts with
            | error e => rw [hcc] at hv; simp [Except.map] at hv
            | ok rest =>
                rcases List.mem_cons.mp hu with h | h
                · subst h; simp [hp]
                · exact ih.mp ⟨rest, hcc⟩ u h
      · intro hall
        have hp : ∃ v, parseTimestamp t.timestamp = some v := by
          have hst := hall t (List.mem_cons_self _ _)
          cases hq : parseTimestamp t.timestamp with
          | none => rw [hq] at hst; simp at hst
          | some v => exact ⟨v, rfl⟩
        rcases hp with ⟨v, hp⟩
        rcases ih.mpr (fun u hu => hall u (List.mem_cons_of_mem _ hu)) with ⟨rest, hcc⟩
        exact ⟨⟨v, t.food, t.user, t.customer, t.amount⟩ :: rest,
          by unfold parseTxs; rw [hp, hcc]; rfl⟩

theorem parseTxs_ok_val {col : List TxRaw} {txs : List Tx} (h : parseTxs col = .ok txs) :
    List.Forall₂ (fun tr t => parseTimestamp tr.timestamp = some t.ts ∧
      t.food = tr.food ∧ t.user = tr.user ∧ t.customer = tr.customer ∧
      t.amount = tr.amount) col txs := by
  induction col generalizing txs with
  | nil =>
      unfold parseTxs at h
      cases h
      exact List.Forall₂.nil
  | cons t ts ih =>
      unfold parseTxs at h
      cases hp : parseTimestamp t.timestamp with
      | none => rw [hp] at h; cases h
      | some v =>
          rw [hp] at h
          cases hcc : parseTxs ts with
          | error e => rw [hcc] at h; simp [Except.map] at h
          | ok rest =>
              rw [hcc] at h
              have htxs : txs = ⟨v, t.food, t.user, t.customer, t.amount⟩ :: rest := by
                simpa [Except.map] using h.symm
              subst htxs
              exact List.Forall₂.cons ⟨hp, rfl, rfl, rfl, rfl⟩ (ih hcc)

theorem parseTxs_error {col : List TxRaw} {e : String} (h : parseTxs col = .error e) :
    ∃ t ∈ col, t.timestamp = e ∧ parseTimestamp e = none := by
  induction col with
  | nil => cases h
  | cons t ts ih =>
      unfold parseTxs at h
      cases hp : parseTimestamp t.timestamp with
      | none =>
          rw [hp] at h
          cases h
          exact ⟨t, List.mem_cons_self _ _, rfl, hp⟩
      | some v =>
          rw [hp] at h
          cases hcc : parseTxs ts with
          | error e0 =>
              rw [hcc] at h
              simp only [Except.map] at h
              cases h
              rcases ih hcc with ⟨u, hu, h1, h2⟩
              exact ⟨u, List.mem_cons_of_mem _ hu, h1, h2⟩
          | ok rest => rw [hcc] at h; simp [Except.map] at h

/-- C8 counterexample: one unrecognizable Timestamp aborts the whole load —
the row with the valid timestamp "2024-01-01" is discarded too — contradicting
the claim that a bad value yields a per-value error that is not fatal to the
other rows. -/
theorem c8_timestamp_counterexample :
    parseTxs [⟨"2024-01-01", "Cod", "a@x.com", "Bob", some "2"⟩,
              ⟨"not a date", "Cod", "a@x.com", "Bob", some "2"⟩] =
      Except.error "not a date" := by decide

/-- C8 as amended: parsing the Timestamp column converts each recognizable
value in place; an unrecognizable value raises an error naming that value and
aborts the whole load — it is not recovered per value. -/
theorem c8_timestamp_amended (col : List TxRaw) :
    ((∃ txs, parseTxs col = .ok txs) ↔
      ∀ t ∈ col, (parseTimestamp t.timestamp).isSome) ∧
    (∀ txs, parseTxs col = .ok txs →
      List.Forall₂ (fun tr t => parseTimestamp tr.timestamp = some t.ts ∧
        t.food = tr.food ∧ t.user = tr.user ∧ t.customer = tr.customer ∧
        t.amount = tr.amount) col txs) ∧
    (∀ e, parseTxs col = .error e → ∃ t ∈ col, t.timestamp = e ∧ parseTimestamp e = none) :=
  ⟨parseTxs_ok_iff col,
   fun _ h => parseTxs_ok_val h,
   fun _ h => parseTxs_error h⟩

/-- Witness for C8: a column of recognizable timestamps parses successfully. -/
theorem c8_timestamp_witness : ∃ txs, parseTxs txC4 = Except.ok txs :=
  (c8_timestamp_amended txC4).1.mpr (by decide)

/-- C3 counterexample: with the item "Cod" sold once by Alice and once by
Bert and only Alice selected, the script's item-profit view still counts
Bert's sale (profit 12 over 4 units), while the aggregation the claim
describes — over the rows satisfying the staff predicate too — gives profit 6
over 2 units; the two differ. -/
theorem c3_item_grouping_counterexample :
    topProfitItems m3 = [("Cod", 12, 4)] ∧
    topProfitItemsSpec ["Alice"] m3 = [("Cod", 6, 2)] ∧
    topProfitItems m3 ≠ topProfitItemsSpec ["Alice"] m3 := by
  have h1 : topProfitItems m3 = [("Cod", 12, 4)] := by
    simp +decide [topProfitItems, profitByItem, groupKeys, groupSum, groupRows,
      sortDescBy, m3, rowA, rowB, profit, List.mergeSort]
    norm_num
  have h2 : topProfitItemsSpec ["Alice"] m3 = [("Cod", 6, 2)] := by
    simp +decide [topProfitItemsSpec, topProfitItems, profitByItem, groupKeys,
      groupSum, groupRows, sortDescBy, m3, rowA, rowB, profit, filteredMerged,
      keepStaff, List.mergeSort]
    norm_num
  refine ⟨h1, h2, ?_⟩
  rw [h1, h2]
  intro hcontra
  simp only [List.cons.injEq, Prod.mk.injEq] at hcontra
  have h12 : (12 : Rat) = 6 := hcontra.1.2.1
  norm_num at h12

/-- C3 as amended: the staff and customer aggregations are computed over the
rows satisfying both the date-range and the staff-name predicate, while the
item-by-profit aggregation is computed over the merged rows before the
staff-name filter (date predicate only); each sums its metric over its group,
sorts descending by the summed metric, and the item-profit and customer views
are limited to the top 10 while the staff view is unbounded (one entry per
distinct staff name). -/
theorem c3_aggregations_amended (sel : List String) (m : List CRow) :
    (List.Pairwise (fun p q : String × Rat => q.2 ≤ p.2)
        (salesByStaff (filteredMerged sel m)) ∧
     (salesByStaff (filteredMerged sel m)).length =
       (groupKeys (fun r => r.staffName) (filteredMerged sel m)).length ∧
     ∀ p ∈ salesByStaff (filteredMerged sel m),
       p.2 = groupSum (fun r => r.staffName) sales p.1 (filteredMerged sel m)) ∧
    (List.Pairwise (fun p q : String × Rat × Rat => q.2.1 ≤ p.2.1) (topProfitItems m) ∧
     (topProfitItems m).length ≤ 10 ∧
     ∀ p ∈ topProfitItems m,
       p.2.1 = groupSum (fun r => r.itemKey) profit p.1 m ∧
       p.2.2 = groupSum (fun r => r.itemKey) (fun r => r.amount) p.1 m) ∧
    (List.Pairwise (fun p q : String × Rat => q.2 ≤ p.2)
        (salesByCustomer (filteredMerged sel m)) ∧
     (salesByCustomer (filteredMerged sel m)).length ≤ 10 ∧
     ∀ p ∈ salesByCustomer (filteredMerged sel m),
       p.2 = groupSum (fun r => some r.customer) sales p.1 (filteredMerged sel m)) := by
  refine ⟨⟨?_, ?_, ?_⟩, ⟨?_, ?_, ?_⟩, ⟨?_, ?_, ?_⟩⟩
  · exact sortDescBy_sorted Prod.snd _
  · exact ((sortDescBy_perm _ _).length_eq).trans (by simp [grouped])
  · intro p hp
    exact (grouped_mem ((sortDescBy_perm _ _).subset hp)).2
  · exact List.Pairwise.sublist (List.take_sublist _ _) (sortDescBy_sorted _ _)
  · exact List.length_take_le _ _
  · intro p hp
    have hp3 := (sortDescBy_perm _ _).subset (List.take_subset _ _ hp)
    rcases List.mem_map.mp hp3 with ⟨k, _, rfl⟩
    exact ⟨rfl, rfl⟩
  · exact List.Pairwise.sublist (List.take_sublist _ _) (sortDescBy_sorted _ _)
  · exact List.length_take_le _ _
  · intro p hp
    exact (grouped_mem ((sortDescBy_perm _ _).subset (List.take_subset _ _ hp))).2

/-- Witness for C3: the amended characterization applied at the concrete
two-staff dataset — the item view's profit entry for "Cod" is the sum over
the rows of both staff members. -/
theorem c3_aggregations_witness :
    ("Cod", (12 : Rat), (4 : Rat)).2.1 = groupSum (fun r => r.itemKey) profit "Cod" m3 := by
  have hmem : ("Cod", (12 : Rat), (4 : Rat)) ∈ topProfitItems m3 := by
    have h1 : topProfitItems m3 = [("Cod", 12, 4)] := by
      simp +decide [topProfitItems, profitByItem, groupKeys, groupSum, groupRows,
        sortDescBy, m3, rowA, rowB, profit, List.mergeSort]
      norm_num
    rw [h1]
    exact List.mem_singleton.mpr rfl
  exact ((c3_aggregations_amended ["Alice"] m3).2.1.2.2 _ hmem).1

end SalesDash
